import Mathlib

/-!
Verification of the result-streaming rendering engine of the ci-search
repository (`src/cmd/search/http.go`), as a shallow embedding in Lean 4.

The two renderers (`renderWithContext`, `renderSummary`) are modelled as
pure functions over a list of match events.  Each `fmt.Fprintf` to the
buffered writer, and each `bw.Flush()`, becomes one abstract output
operation appended to a trace, so that claims about headers, separators,
rows, per-block counts and flush cadence can be stated as properties of
that trace.  Fallible Go behaviour (calling `String()` on a nil
`*url.URL`) is modelled by terminating the render with an error value,
mirroring a Go panic that propagates out of the render call.
-/

namespace CiSearch

/-- One match event, mirroring the callback arguments of `executeGrep`:
`func(name string, search string, matches []bytes.Buffer, moreLines int)`.
Each `bytes.Buffer` in `matches` is one raw text line. -/
structure MatchEvent where
  name : String
  search : String
  /-- the `matches []bytes.Buffer` argument (the word `matches` is a
  reserved token in Lean, hence the altered field name) -/
  matchList : List String
  moreLines : Nat
deriving DecidableEq

/-- Resolved metadata for one source, mirroring the `Result` value returned
by `ResultMetadata.MetadataFor`.  `jobURI` models the `*url.URL` field:
`none` is a nil pointer.  `failedAt` models the `time.Time` field as an
integer timestamp whose zero value (`IsZero`) is `0`. -/
structure Result where
  fileType : String
  trigger : String
  name : String
  number : Int
  jobURI : Option String
  failedAt : Int
deriving DecidableEq

/-- Modelled from the spec: the metadata resolver contract says a miss
returns a zero-value metadata and `found=false` (the `Result` type and
`MetadataFor` implementation are outside `src/cmd/search/http.go`).
The zero value of `Result` has empty strings, number 0, a nil `jobURI`
pointer and a zero `failedAt`. -/
def zeroResult : Result :=
  { fileType := "", trigger := "", name := "", number := 0, jobURI := none, failedAt := 0 }

/-- Go evaluation of `u.String()` for `u : *url.URL`: calling it on a nil
pointer dereferences nil and panics; on a non-nil pointer it yields the
URL text.  The panic is modelled as an error value. -/
def uriString : Option String → Except String String
  | none => Except.error "nil pointer dereference"
  | some s => Except.ok s

/-- One escaped character, following `text/template.HTMLEscape`:
`"` becomes `&#34;`, the apostrophe becomes `&#39;`, `&` becomes `&amp;`,
`<` becomes `&lt;`, `>` becomes `&gt;`, the NUL byte becomes U+FFFD, and
every other character is unchanged. -/
def htmlEscapeChar (c : Char) : String :=
  if c = Char.ofNat 34 then "&#34;"
  else if c = Char.ofNat 39 then "&#39;"
  else if c = '&' then "&amp;"
  else if c = '<' then "&lt;"
  else if c = '>' then "&gt;"
  else if c = Char.ofNat 0 then "�"
  else String.singleton c

/-- `template.HTMLEscapeString`: escape every character of the input. -/
def htmlEscape (s : String) : String :=
  s.data.foldl (fun acc c => acc ++ htmlEscapeChar c) ""

/-- `bytes.TrimRight(m.Bytes(), " ")`: drop trailing space characters. -/
def trimRightSpaces (s : String) : String :=
  String.mk ((s.data.reverse.dropWhile (fun c => c = ' ')).reverse)

/-- The second loop of the hit-line cleanup in `renderWithContext`
(lines 324-329): truncate the slice from the right while its last element
is empty. -/
def dropTrailingEmpties (ls : List String) : List String :=
  (ls.reverse.dropWhile (fun l => l = "")).reverse

/-- The per-hit line cleanup of `renderWithContext` (lines 315-329): the
first loop right-trims spaces from each line and skips (`continue`) every
line that is empty after trimming, wherever it occurs; the second loop
then drops trailing empty lines from the collected slice. -/
def hitLines (ms : List String) : List String :=
  dropTrailingEmpties (((ms.map trimRightSpaces).filter (fun l => l ≠ "")))

/-- Output operations of the context renderer, one per `Fprintf`/`Flush`
call in `renderWithContext`. -/
inductive CtxOut where
  /-- `bw.Flush()` -/
  | flush
  /-- the between-hit marker `"\n&mdash;\n\n"` -/
  | sep
  /-- `"</pre></div>"` -/
  | closeBlock
  /-- `"<div class=\x22mb-4\x22>"` -/
  | blockOpen
  /-- the `<h5 ...>...<pre ...>` header line, with its escaped arguments -/
  | headerLine (fileType trigger uri name : String) (number : Int) (age : String)
  /-- one escaped hit line followed by a newline -/
  | line (s : String)
  /-- `"\n... %d lines not shown\n\n"` -/
  | moreNotice (n : Nat)
deriving DecidableEq

/-- Mutable locals of `renderWithContext` together with the output trace. -/
structure CtxState where
  count : Nat
  lineCount : Nat
  lastName : String
  out : List CtxOut
deriving DecidableEq

/-- The shared tail of the `executeGrep` callback in `renderWithContext`
(lines 315-338): emit the cleaned hit lines and the more-lines notice,
returning the new trace and the number of emitted lines. -/
def emitHit (out : List CtxOut) (e : MatchEvent) : List CtxOut × Nat :=
  let ls := hitLines e.matchList
  let out := out ++ ls.map (fun l => CtxOut.line (htmlEscape l))
  (if e.moreLines > 0 then out ++ [CtxOut.moreNotice e.moreLines] else out, ls.length)

/-- The flush check at the head of the callback (line 292): flush the
buffered writer when `count == 5 || count%50 == 0` (true in particular
while `count` is still 0). -/
def ctxFlush (st : CtxState) : CtxState :=
  if st.count = 5 ∨ st.count % 50 = 0 then { st with out := st.out ++ [CtxOut.flush] } else st

/-- One step of the `executeGrep` callback of `renderWithContext`
(lines 291-339).  `hd` models `units.HumanDuration`; `meta` models
`resultMeta.MetadataFor`; `start` is the render start time.  The second
component is `some msg` when the step panicked (nil `JobURI` dereference
while building the header line), in which case the Go callback never
reaches the code after the header `Fprintf`. -/
def ctxStep (hd : Int → String) (meta : String → Result × Bool) (start : Int)
    (st : CtxState) (e : MatchEvent) : CtxState × Option String :=
  let st := ctxFlush st
  let branch : CtxState × Option String :=
    if st.lastName = e.name then
      ({ st with out := st.out ++ [CtxOut.sep] }, none)
    else
      let st := { st with lastName := e.name }
      let st := if st.count > 0 then { st with out := st.out ++ [CtxOut.closeBlock] } else st
      let st := { st with count := st.count + 1 }
      let result := (meta e.name).1
      let age := if result.failedAt ≠ 0 then " " ++ hd (start - result.failedAt) else ""
      let st := { st with out := st.out ++ [CtxOut.blockOpen] }
      match uriString result.jobURI with
      | Except.error m => (st, some m)
      | Except.ok uri =>
        ({ st with out := st.out ++ [CtxOut.headerLine (htmlEscape result.fileType)
            (htmlEscape result.trigger) (htmlEscape uri) (htmlEscape result.name)
            result.number (htmlEscape age)] }, none)
  match branch with
  | (st, some m) => (st, some m)
  | (st, none) =>
    let p := emitHit st.out e
    ({ st with out := p.1, lineCount := st.lineCount + p.2 }, none)

/-- Consume the event stream one step at a time; a panic aborts the loop
and propagates, keeping the output written so far. -/
def ctxGo (hd : Int → String) (meta : String → Result × Bool) (start : Int) :
    CtxState → List MatchEvent → CtxState × Option String
  | st, [] => (st, none)
  | st, e :: rest =>
    match ctxStep hd meta start st e with
    | (st', none) => ctxGo hd meta start st' rest
    | (st', some m) => (st', some m)

/-- Initial state of `renderWithContext`: `count = 0`, `lineCount = 0`,
`lastName` is the zero value `""`, nothing written yet. -/
def initCtx : CtxState := { count := 0, lineCount := 0, lastName := "", out := [] }

/-- `renderWithContext` (lines 285-347) on a fully delivered event stream:
returns the output trace, the returned `count`, and `some msg` if the
render panicked (in which case the closing `</pre></div>` and the final
flush never execute). -/
def renderWithContext (hd : Int → String) (meta : String → Result × Bool)
    (start : Int) (events : List MatchEvent) : List CtxOut × Nat × Option String :=
  match ctxGo hd meta start initCtx events with
  | (st, some m) => (st.out, st.count, some m)
  | (st, none) =>
    let out := if st.count > 0 then st.out ++ [CtxOut.closeBlock] else st.out
    (out ++ [CtxOut.flush], st.count, none)

/-- Output operations of the summary renderer, one per `Fprintf`/`Flush`
call in `renderSummary`. -/
inductive SumOut where
  /-- the opening `<table ...>...<tr>...` row of headers -/
  | tableStart
  /-- `bw.Flush()` -/
  | flush
  /-- `"<td>%d</td>"` carrying the accumulated hit count of the closed row -/
  | rowCount (n : Nat)
  /-- `"</tr>"` -/
  | rowClose
  /-- `"<tr>"` plus the type/link/age cells, with their escaped arguments -/
  | rowOpen (fileType uri name : String) (number : Int) (age : String)
deriving DecidableEq

/-- Mutable locals of `renderSummary` together with the output trace. -/
structure SumState where
  count : Nat
  currentLines : Nat
  lastName : String
  out : List SumOut
deriving DecidableEq

/-- The flush check at the head of the summary callback (line 356),
identical to `ctxFlush`: flush when `count == 5 || count%50 == 0`.
In the callback body that follows, a new source whose metadata has a nil
`JobURI` is logged and skipped (`return`): its `lastName` update has
already happened, but the previous row is not closed, `count` is not
incremented and `currentLines` is not incremented for that event. -/
def sumFlush (st : SumState) : SumState :=
  if st.count = 5 ∨ st.count % 50 = 0 then { st with out := st.out ++ [SumOut.flush] } else st

/-- One step of the `executeGrep` callback of `renderSummary`
(lines 355-388), see the doc of `sumFlush` for the flush check. -/
def sumStep (hd : Int → String) (meta : String → Result × Bool) (start : Int)
    (st : SumState) (e : MatchEvent) : SumState :=
  let st := sumFlush st
  if st.lastName = e.name then
    { st with currentLines := st.currentLines + 1 }
  else
    let st := { st with lastName := e.name }
    let result := (meta e.name).1
    let age := if result.failedAt ≠ 0 then hd (start - result.failedAt) ++ " ago" else ""
    match result.jobURI with
    | none => st
    | some uri =>
      let st := if st.count > 0 then
        { st with
          out := st.out ++ [SumOut.rowCount st.currentLines, SumOut.rowClose],
          currentLines := 0 }
        else st
      let st := { st with count := st.count + 1 }
      let st := { st with out := st.out ++ [SumOut.rowOpen (htmlEscape result.fileType)
          (htmlEscape uri) (htmlEscape result.name) result.number (htmlEscape age)] }
      { st with currentLines := st.currentLines + 1 }

/-- Consume the event stream of the summary renderer. -/
def sumGo (hd : Int → String) (meta : String → Result × Bool) (start : Int) :
    SumState → List MatchEvent → SumState
  | st, [] => st
  | st, e :: rest => sumGo hd meta start (sumStep hd meta start st e) rest

/-- Initial state of `renderSummary`: zero counters, `lastName` is `""`,
and the table header row already written (line 354). -/
def initSum : SumState :=
  { count := 0, currentLines := 0, lastName := "", out := [SumOut.tableStart] }

/-- `renderSummary` (lines 349-398) on a fully delivered event stream:
returns the output trace and the returned `count`.  After the stream
ends, an open row is closed with its accumulated hit count and the
buffer is flushed. -/
def renderSummary (hd : Int → String) (meta : String → Result × Bool)
    (start : Int) (events : List MatchEvent) : List SumOut × Nat :=
  let st := sumGo hd meta start initSum events
  let out := if st.count > 0 then
    st.out ++ [SumOut.rowCount st.currentLines, SumOut.rowClose] else st.out
  (out ++ [SumOut.flush], st.count)

/-- Recognizer for the flush operation of the context trace. -/
def isCtxFlush : CtxOut → Bool
  | CtxOut.flush => true
  | _ => false

/-- Recognizer for the header line of a block. -/
def isHeaderLine : CtxOut → Bool
  | CtxOut.headerLine _ _ _ _ _ _ => true
  | _ => false

/-- Recognizer for the `<div class=...>` block opening. -/
def isBlockOpen : CtxOut → Bool
  | CtxOut.blockOpen => true
  | _ => false

/-- Recognizer for the between-hit separator marker. -/
def isSep : CtxOut → Bool
  | CtxOut.sep => true
  | _ => false

/-- The emitted hit-line texts of a context trace, in order. -/
def ctxLineStrings (tr : List CtxOut) : List String :=
  tr.filterMap (fun o => match o with
    | CtxOut.line s => some s
    | _ => none)

/-- Recognizer for the flush operation of the summary trace. -/
def isSumFlush : SumOut → Bool
  | SumOut.flush => true
  | _ => false

/-- Recognizer for a `<tr>` row opening. -/
def isRowOpen : SumOut → Bool
  | SumOut.rowOpen _ _ _ _ _ => true
  | _ => false

/-- The per-row hit counts written into a summary trace, in order. -/
def rowCountsOf (tr : List SumOut) : List Nat :=
  tr.filterMap (fun o => match o with
    | SumOut.rowCount n => some n
    | _ => none)

/-- A stand-in for `units.HumanDuration`, an external library function
whose exact text none of the claims inspect. -/
def hdToString : Int → String := fun d => toString d

/-- A total resolver: every source resolves, with the source identifier
itself as job URL text. -/
def metaAll : String → Result × Bool := fun n =>
  ({ fileType := "", trigger := "", name := n, number := 0, jobURI := some n, failedAt := 0 }, true)

/-- Modelled from the spec: a resolver that misses every source identifier,
returning zero-value metadata and `found=false` per the metadata resolver
contract (the resolver implementation is outside `src/cmd/search/http.go`). -/
def metaMissAll : String → Result × Bool := fun _ => (zeroResult, false)

/-- A resolver where source `a` has a job URL and every other source
resolves with a nil job URL. -/
def metaOnlyA : String → Result × Bool := fun n =>
  if n = "a" then ({ zeroResult with name := n, jobURI := some "ua" }, true)
  else ({ zeroResult with name := n }, true)

/-- The number of new rows the summary renderer opens for an event
relative to the previous `lastName`: one when the event starts a new
block and its metadata carries a job URL, zero otherwise. -/
def rowDelta (meta : String → Result × Bool) (prev : String) (e : MatchEvent) : Nat :=
  if e.name ≠ prev ∧ (((meta e.name).1.jobURI).isSome = true) then 1 else 0

/-- Reference count of summary rows: the number of events that start a
new block (name differs from the immediately preceding one, threading
the name even through skipped blocks) and whose metadata has a job URL. -/
def specRowCount (meta : String → Result × Bool) : String → List MatchEvent → Nat
  | _, [] => 0
  | prev, e :: rest => rowDelta meta prev e + specRowCount meta e.name rest

/-- Run lengths of the tail of an event list, continuing an open run of
name `prev` with `acc` events so far. -/
def contRuns : String → Nat → List MatchEvent → List Nat
  | _, acc, [] => [acc]
  | prev, acc, e :: rest =>
    if e.name = prev then contRuns prev (acc + 1) rest else acc :: contRuns e.name 1 rest

/-- The number of run boundaries in the tail of an event list relative to
the previous name. -/
def newRuns : String → List MatchEvent → Nat
  | _, [] => 0
  | prev, e :: rest =>
    if e.name = prev then newRuns prev rest else 1 + newRuns e.name rest

/-- Lengths of the maximal runs of consecutive equal-name events. -/
def runLens : List MatchEvent → List Nat
  | [] => []
  | e :: rest => contRuns e.name 1 rest

/-- The 120 sequential single-hit sources of the flush-cadence property:
pairwise distinct non-empty names, one hit line each. -/
def evs120 : List MatchEvent :=
  (List.range 120).map
    (fun i => { name := "s" ++ toString i, search := "p", matchList := ["x"], moreLines := 0 })

/-- `time.Hour` in nanoseconds (Go `time.Duration` counts nanoseconds). -/
def goHour : Int := 3600 * 1000000000

/-- `strconv.Atoi`: an optional sign followed by at least one digit;
anything else fails.  Go additionally errors on 64-bit overflow, but for
the `context` field every overflowing value is also outside `[-1, 15]`
and both paths yield the same validation error, so the distinction is
immaterial here. -/
def goAtoi (s : String) : Option Int :=
  let p : Int × List Char :=
    match s.data with
    | '+' :: rest => (1, rest)
    | '-' :: rest => (-1, rest)
    | cs => (1, cs)
  if p.2 = [] then none
  else if p.2.all (fun c => c.isDigit) then
    some (p.1 * ((p.2.foldl (fun a c => a * 10 + (c.toNat - 48)) 0 : Nat) : Int))
  else none

/-- The fixed chart-mode search patterns appended by `parseRequest` when
no search value is supplied in mode `chart` (lines 163-214; only the
uncommented appends). -/
def chartPatterns : List String :=
  ["could not create or restart template instance.*",
   "could not (wait for|get) build.*",
   "level=error.*timeout while waiting for state.*",
   "Container setup exited with code ., reason Error",
   "no providers available to validate pod",
   "Error deleting EBS volume .* since volume is currently attached",
   "clusteroperator/.* changed Degraded to True: .*",
   "Cluster operator .* is still updating.*",
   "Pod .* is not healthy",
   "failed: \\(.*"]

/-- The request form values consumed by `parseRequest`: `FormValue`
returns the empty string for an absent parameter; `Form["search"]` is
the full value list.  The `type` field is spelled `typ` because `type`
is a Lean keyword. -/
structure Form where
  search : List String
  typ : String
  name : String
  maxAge : String
  context : String
deriving DecidableEq

/-- The normalized query descriptor (`Index`), restricted to the fields
`parseRequest` fills; `job` records whether a job-name filter was
compiled. -/
structure Index where
  search : List String
  searchType : String
  job : Bool
  maxAge : Int
  context : Int
deriving DecidableEq

/-- The `switch req.FormValue("type")` of lines 216-225: `junit`,
`build-log` and `all` map to themselves, the empty value maps to `all`,
anything else is a validation error. -/
def parseSearchType (t : String) : Except String String :=
  if t = "junit" then Except.ok "junit"
  else if t = "build-log" then Except.ok "build-log"
  else if t = "all" then Except.ok "all"
  else if t = "" then Except.ok "all"
  else Except.error "search must be junit, build-log, or all"

/-- Lines 227-236: compile the job-name filter (defaulting to `-e2e-` in
mode `chart`); `cr` models `regexp.Compile` succeeding. -/
def parseJob (mode : String) (cr : String → Bool) (name : String) : Except String Bool :=
  if name.length > 0 ∨ mode = "chart" then
    (if cr (if name.length = 0 then "-e2e-" else name) then Except.ok true
     else Except.error "name is an invalid regular expression")
  else Except.ok false

/-- Lines 238-246: parse the requested `maxAge`; `pd` models
`time.ParseDuration` (`none` is a parse error); a negative parsed
duration is rejected. -/
def parseMaxAgeField (pd : String → Option Int) (s : String) : Except String Int :=
  if s.length > 0 then
    match pd s with
    | none => Except.error "maxAge is an invalid duration"
    | some d => if d < 0 then Except.error "maxAge must be non-negative" else Except.ok d
  else Except.ok 0

/-- Lines 247-256: clamp the requested age by the server ceiling
(`o.MaxAge`, defaulting to 7 days, capped at 24h in mode `chart`). -/
def clampMaxAge (mode : String) (oMaxAge : Int) (requested : Int) : Int :=
  let m := if oMaxAge = 0 then 7 * 24 * goHour else oMaxAge
  let m2 := if mode = "chart" ∧ m > 24 * goHour then 24 * goHour else m
  if requested = 0 ∨ requested > m2 then m2 else requested

/-- Lines 258-266: parse the `context` field; a present value must be an
integer in `[-1, 15]`; an absent value defaults to 2 in mode `text` and
otherwise stays the zero value 0. -/
def parseContextField (mode : String) (s : String) : Except String Int :=
  if s.length > 0 then
    match goAtoi s with
    | none => Except.error "context must be a number between -1 and 15"
    | some n =>
      if n < -1 ∨ n > 15 then Except.error "context must be a number between -1 and 15"
      else Except.ok n
  else if mode = "text" then Except.ok 2 else Except.ok 0

/-- `parseRequest` (lines 155-269): validate and normalize the request
into an `Index`; any validation failure returns only the error — no part
of the descriptor is produced. -/
def parseRequest (mode : String) (oMaxAge : Int) (pd : String → Option Int)
    (cr : String → Bool) (form : Form) : Except String Index :=
  let search := if form.search = [] ∧ mode = "chart" then chartPatterns else form.search
  match parseSearchType form.typ with
  | Except.error msg => Except.error msg
  | Except.ok st =>
    match parseJob mode cr form.name with
    | Except.error msg => Except.error msg
    | Except.ok job =>
      match parseMaxAgeField pd form.maxAge with
      | Except.error msg => Except.error msg
      | Except.ok ma =>
        match parseContextField mode form.context with
        | Except.error msg => Except.error msg
        | Except.ok ctx =>
          Except.ok ⟨search, st, job, clampMaxAge mode oMaxAge ma, ctx⟩

/-- The two renderers `handleIndex` can dispatch to. -/
inductive Renderer where
  | context
  | summary
deriving DecidableEq

/-- The renderer dispatch of `handleIndex` (lines 132-137):
`index.Context >= 0` runs `renderWithContext`, otherwise
`renderSummary`. -/
def selectRenderer (contextLines : Int) : Renderer :=
  if contextLines ≥ 0 then Renderer.context else Renderer.summary

/-- Whether a parse produced a descriptor. -/
def isOkE (r : Except String Index) : Bool :=
  match r with
  | Except.ok _ => true
  | Except.error _ => false

/-- The trace operations a single hit contributes after the block head:
its cleaned, escaped lines and the optional more-lines notice. -/
def hitOps (e : MatchEvent) : List CtxOut :=
  (hitLines e.matchList).map (fun l => CtxOut.line (htmlEscape l)) ++
    (if e.moreLines > 0 then [CtxOut.moreNotice e.moreLines] else [])

theorem emitHit_eq (out : List CtxOut) (e : MatchEvent) :
    emitHit out e = (out ++ hitOps e, (hitLines e.matchList).length) := by
  unfold emitHit hitOps
  split <;> simp

theorem ctxFlush_count (st : CtxState) : (ctxFlush st).count = st.count := by
  unfold ctxFlush; split <;> rfl

theorem ctxFlush_lastName (st : CtxState) : (ctxFlush st).lastName = st.lastName := by
  unfold ctxFlush; split <;> rfl

theorem ctxFlush_lineCount (st : CtxState) : (ctxFlush st).lineCount = st.lineCount := by
  unfold ctxFlush; split <;> rfl

theorem ctxFlush_countP (p : CtxOut → Bool) (hp : p CtxOut.flush = false) (st : CtxState) :
    List.countP p (ctxFlush st).out = List.countP p st.out := by
  unfold ctxFlush; split <;> simp [List.countP_append, hp]

theorem countP_hitOps (p : CtxOut → Bool) (hline : ∀ s, p (CtxOut.line s) = false)
    (hmore : ∀ n, p (CtxOut.moreNotice n) = false) (e : MatchEvent) :
    List.countP p (hitOps e) = 0 := by
  unfold hitOps
  split <;> simp [List.countP_append, List.countP_map, Function.comp, hline, hmore]

theorem ctxStep_same (hd : Int → String) (meta : String → Result × Bool) (start : Int)
    (st : CtxState) (e : MatchEvent) (h : st.lastName = e.name) :
    ctxStep hd meta start st e =
      ({ ctxFlush st with
          lineCount := (ctxFlush st).lineCount + (hitLines e.matchList).length,
          out := ((ctxFlush st).out ++ [CtxOut.sep]) ++ hitOps e }, none) := by
  have hl : (ctxFlush st).lastName = e.name := by rw [ctxFlush_lastName, h]
  simp [ctxStep, hl, emitHit_eq, ctxFlush_lineCount]

theorem ctxStep_new_some (hd : Int → String) (meta : String → Result × Bool) (start : Int)
    (st : CtxState) (e : MatchEvent) (h : ¬ st.lastName = e.name)
    (uri : String) (hu : (meta e.name).1.jobURI = some uri) :
    ∃ hl, isHeaderLine hl = true ∧
      ctxStep hd meta start st e =
        ({ count := st.count + 1, lastName := e.name,
           lineCount := st.lineCount + (hitLines e.matchList).length,
           out := ((ctxFlush st).out ++
             ((if 0 < st.count then [CtxOut.closeBlock] else []) ++ [CtxOut.blockOpen, hl]))
             ++ hitOps e }, none) := by
  refine ⟨CtxOut.headerLine (htmlEscape (meta e.name).1.fileType)
      (htmlEscape (meta e.name).1.trigger) (htmlEscape uri)
      (htmlEscape (meta e.name).1.name) (meta e.name).1.number
      (htmlEscape (if (meta e.name).1.failedAt ≠ 0
        then " " ++ hd (start - (meta e.name).1.failedAt) else "")), rfl, ?_⟩
  have hl : ¬ (ctxFlush st).lastName = e.name := by rw [ctxFlush_lastName]; exact h
  by_cases hc : 0 < st.count <;>
    simp [ctxStep, hl, h, uriString, hu, emitHit_eq, ctxFlush_count, ctxFlush_lastName,
      ctxFlush_lineCount, hc, List.append_assoc]

theorem ctxStep_new_none (hd : Int → String) (meta : String → Result × Bool) (start : Int)
    (st : CtxState) (e : MatchEvent) (h : ¬ st.lastName = e.name)
    (hu : (meta e.name).1.jobURI = none) :
    ctxStep hd meta start st e =
      ({ count := st.count + 1, lastName := e.name, lineCount := st.lineCount,
         out := (ctxFlush st).out ++
           ((if 0 < st.count then [CtxOut.closeBlock] else []) ++ [CtxOut.blockOpen]) },
       some "nil pointer dereference") := by
  have hl : ¬ (ctxFlush st).lastName = e.name := by rw [ctxFlush_lastName]; exact h
  by_cases hc : 0 < st.count <;>
    simp [ctxStep, hl, h, uriString, hu, ctxFlush_count, ctxFlush_lastName,
      ctxFlush_lineCount, hc, List.append_assoc]

theorem sumFlush_count (st : SumState) : (sumFlush st).count = st.count := by
  unfold sumFlush; split <;> rfl

theorem sumFlush_lastName (st : SumState) : (sumFlush st).lastName = st.lastName := by
  unfold sumFlush; split <;> rfl

theorem sumFlush_currentLines (st : SumState) : (sumFlush st).currentLines = st.currentLines := by
  unfold sumFlush; split <;> rfl

theorem sumFlush_countP (p : SumOut → Bool) (hp : p SumOut.flush = false) (st : SumState) :
    List.countP p (sumFlush st).out = List.countP p st.out := by
  unfold sumFlush; split <;> simp [List.countP_append, hp]

theorem rowCountsOf_append (a b : List SumOut) :
    rowCountsOf (a ++ b) = rowCountsOf a ++ rowCountsOf b := by
  unfold rowCountsOf; exact List.filterMap_append a b _

theorem sumFlush_rowCountsOf (st : SumState) :
    rowCountsOf (sumFlush st).out = rowCountsOf st.out := by
  unfold sumFlush; split <;> simp [rowCountsOf_append, rowCountsOf]

theorem sumStep_same (hd : Int → String) (meta : String → Result × Bool) (start : Int)
    (st : SumState) (e : MatchEvent) (h : st.lastName = e.name) :
    sumStep hd meta start st e =
      { sumFlush st with currentLines := (sumFlush st).currentLines + 1 } := by
  have hl : (sumFlush st).lastName = e.name := by rw [sumFlush_lastName, h]
  simp [sumStep, hl]

theorem sumStep_new_none (hd : Int → String) (meta : String → Result × Bool) (start : Int)
    (st : SumState) (e : MatchEvent) (h : ¬ st.lastName = e.name)
    (hu : (meta e.name).1.jobURI = none) :
    sumStep hd meta start st e = { sumFlush st with lastName := e.name } := by
  have hl : ¬ (sumFlush st).lastName = e.name := by rw [sumFlush_lastName]; exact h
  simp [sumStep, hl, hu]

theorem sumStep_new_some_pos (hd : Int → String) (meta : String → Result × Bool) (start : Int)
    (st : SumState) (e : MatchEvent) (h : ¬ st.lastName = e.name)
    (uri : String) (hu : (meta e.name).1.jobURI = some uri) (hc : 0 < st.count) :
    ∃ ro, isRowOpen ro = true ∧
      sumStep hd meta start st e =
        { count := st.count + 1, currentLines := 1, lastName := e.name,
          out := (sumFlush st).out ++
            [SumOut.rowCount st.currentLines, SumOut.rowClose, ro] } := by
  refine ⟨SumOut.rowOpen (htmlEscape (meta e.name).1.fileType) (htmlEscape uri)
      (htmlEscape (meta e.name).1.name) (meta e.name).1.number
      (htmlEscape (if (meta e.name).1.failedAt ≠ 0
        then hd (start - (meta e.name).1.failedAt) ++ " ago" else "")), rfl, ?_⟩
  have hl : ¬ (sumFlush st).lastName = e.name := by rw [sumFlush_lastName]; exact h
  have hcf : 0 < (sumFlush st).count := by rw [sumFlush_count]; exact hc
  simp [sumStep, hl, hu, hc, hcf, sumFlush_count, sumFlush_currentLines, List.append_assoc]

theorem sumStep_new_some_zero (hd : Int → String) (meta : String → Result × Bool) (start : Int)
    (st : SumState) (e : MatchEvent) (h : ¬ st.lastName = e.name)
    (uri : String) (hu : (meta e.name).1.jobURI = some uri) (hc : st.count = 0) :
    ∃ ro, isRowOpen ro = true ∧
      sumStep hd meta start st e =
        { count := 1, currentLines := st.currentLines + 1, lastName := e.name,
          out := (sumFlush st).out ++ [ro] } := by
  refine ⟨SumOut.rowOpen (htmlEscape (meta e.name).1.fileType) (htmlEscape uri)
      (htmlEscape (meta e.name).1.name) (meta e.name).1.number
      (htmlEscape (if (meta e.name).1.failedAt ≠ 0
        then hd (start - (meta e.name).1.failedAt) ++ " ago" else "")), rfl, ?_⟩
  have hl : ¬ (sumFlush st).lastName = e.name := by rw [sumFlush_lastName]; exact h
  have hcf : ¬ 0 < (sumFlush st).count := by rw [sumFlush_count, hc]; exact Nat.lt_irrefl 0
  simp [sumStep, hl, hu, hcf, sumFlush_count, sumFlush_currentLines, hc]

theorem rowCountsOf_isRowOpen (o : SumOut) (h : isRowOpen o = true) :
    rowCountsOf [o] = [] := by
  cases o <;> simp_all [isRowOpen, rowCountsOf]

theorem sumStep_lastName (hd : Int → String) (meta : String → Result × Bool) (start : Int)
    (st : SumState) (e : MatchEvent) : (sumStep hd meta start st e).lastName = e.name := by
  by_cases h : st.lastName = e.name
  · rw [sumStep_same hd meta start st e h]; simp [sumFlush_lastName, h]
  · cases hu : (meta e.name).1.jobURI with
    | none => rw [sumStep_new_none hd meta start st e h hu]
    | some uri =>
      by_cases hc : 0 < st.count
      · obtain ⟨ro, hro, heq⟩ := sumStep_new_some_pos hd meta start st e h uri hu hc
        rw [heq]
      · obtain ⟨ro, hro, heq⟩ :=
          sumStep_new_some_zero hd meta start st e h uri hu (Nat.eq_zero_of_not_pos hc)
        rw [heq]

theorem sumStep_count (hd : Int → String) (meta : String → Result × Bool) (start : Int)
    (st : SumState) (e : MatchEvent) :
    (sumStep hd meta start st e).count = st.count + rowDelta meta st.lastName e := by
  by_cases h : st.lastName = e.name
  · rw [sumStep_same hd meta start st e h]
    simp [rowDelta, sumFlush_count, h.symm]
  · cases hu : (meta e.name).1.jobURI with
    | none =>
      rw [sumStep_new_none hd meta start st e h hu]
      simp [rowDelta, sumFlush_count, hu, Ne.symm h]
    | some uri =>
      have hs : ((meta e.name).1.jobURI).isSome = true := by rw [hu]; rfl
      by_cases hc : 0 < st.count
      · obtain ⟨ro, hro, heq⟩ := sumStep_new_some_pos hd meta start st e h uri hu hc
        rw [heq]; simp [rowDelta, hs, Ne.symm h]
      · obtain ⟨ro, hro, heq⟩ :=
          sumStep_new_some_zero hd meta start st e h uri hu (Nat.eq_zero_of_not_pos hc)
        rw [heq]; simp [rowDelta, hs, Ne.symm h, Nat.eq_zero_of_not_pos hc]

theorem sumStep_rowOpenCount (hd : Int → String) (meta : String → Result × Bool) (start : Int)
    (st : SumState) (e : MatchEvent) :
    List.countP isRowOpen (sumStep hd meta start st e).out
      = List.countP isRowOpen st.out + rowDelta meta st.lastName e := by
  have hf : List.countP isRowOpen (sumFlush st).out = List.countP isRowOpen st.out :=
    sumFlush_countP isRowOpen rfl st
  by_cases h : st.lastName = e.name
  · rw [sumStep_same hd meta start st e h]
    simp [rowDelta, hf, h.symm]
  · cases hu : (meta e.name).1.jobURI with
    | none =>
      rw [sumStep_new_none hd meta start st e h hu]
      simp [rowDelta, hf, hu, Ne.symm h]
    | some uri =>
      have hs : ((meta e.name).1.jobURI).isSome = true := by rw [hu]; rfl
      by_cases hc : 0 < st.count
      · obtain ⟨ro, hro, heq⟩ := sumStep_new_some_pos hd meta start st e h uri hu hc
        rw [heq]
        simp [rowDelta, hs, Ne.symm h, List.countP_append, List.countP_cons,
          isRowOpen, hf, hro]
        exact hro
      · obtain ⟨ro, hro, heq⟩ :=
          sumStep_new_some_zero hd meta start st e h uri hu (Nat.eq_zero_of_not_pos hc)
        rw [heq]
        simp [rowDelta, hs, Ne.symm h, List.countP_append, List.countP_cons,
          isRowOpen, hf, hro]
        exact hro

theorem sumGo_spec (hd : Int → String) (meta : String → Result × Bool) (start : Int) :
    ∀ (evs : List MatchEvent) (st : SumState),
      (sumGo hd meta start st evs).count = st.count + specRowCount meta st.lastName evs ∧
      List.countP isRowOpen (sumGo hd meta start st evs).out
        = List.countP isRowOpen st.out + specRowCount meta st.lastName evs := by
  intro evs
  induction evs with
  | nil => intro st; simp [sumGo, specRowCount]
  | cons e rest ih =>
    intro st
    have hc := sumStep_count hd meta start st e
    have hr := sumStep_rowOpenCount hd meta start st e
    have hl := sumStep_lastName hd meta start st e
    obtain ⟨ih1, ih2⟩ := ih (sumStep hd meta start st e)
    refine ⟨?_, ?_⟩
    · rw [sumGo, ih1, hc, hl, specRowCount]; omega
    · rw [sumGo, ih2, hr, hl, specRowCount]; omega

theorem contRuns_length (l : List MatchEvent) :
    ∀ (prev : String) (acc : Nat), (contRuns prev acc l).length = 1 + newRuns prev l := by
  induction l with
  | nil => intro prev acc; simp [contRuns, newRuns]
  | cons e rest ih =>
    intro prev acc
    by_cases h : e.name = prev
    · simp [contRuns, newRuns, h, ih]
    · simp [contRuns, newRuns, h, ih]
      omega

theorem ctxFlush_of_count_one (st : CtxState) (h : st.count = 1) : ctxFlush st = st := by
  unfold ctxFlush
  rw [h]
  simp

theorem sumGo_rows (hd : Int → String) (meta : String → Result × Bool) (start : Int)
    (hall : ∀ n, ((meta n).1.jobURI).isSome = true) :
    ∀ (evs : List MatchEvent) (st : SumState), 0 < st.count →
      rowCountsOf (sumGo hd meta start st evs).out ++ [(sumGo hd meta start st evs).currentLines]
        = rowCountsOf st.out ++ contRuns st.lastName st.currentLines evs ∧
      (sumGo hd meta start st evs).count = st.count + newRuns st.lastName evs := by
  intro evs
  induction evs with
  | nil => intro st hpos; simp [sumGo, contRuns, newRuns]
  | cons e rest ih =>
    intro st hpos
    rw [sumGo]
    by_cases h : st.lastName = e.name
    · rw [sumStep_same hd meta start st e h]
      obtain ⟨ih1, ih2⟩ := ih { sumFlush st with currentLines := (sumFlush st).currentLines + 1 }
        (by simpa [sumFlush_count] using hpos)
      refine ⟨?_, ?_⟩
      · rw [ih1]
        simp only [sumFlush_lastName, sumFlush_currentLines, sumFlush_rowCountsOf]
        rw [contRuns, if_pos h.symm]
      · rw [ih2]
        simp only [sumFlush_lastName, sumFlush_count]
        rw [newRuns, if_pos h.symm]
    · obtain ⟨uri, hu⟩ := Option.isSome_iff_exists.mp (hall e.name)
      obtain ⟨ro, hro, heq⟩ := sumStep_new_some_pos hd meta start st e h uri hu hpos
      rw [heq]
      obtain ⟨ih1, ih2⟩ := ih ⟨st.count + 1, 1, e.name,
          (sumFlush st).out ++ [SumOut.rowCount st.currentLines, SumOut.rowClose, ro]⟩
        (Nat.succ_pos st.count)
      refine ⟨?_, ?_⟩
      · rw [ih1]
        simp only [rowCountsOf_append, sumFlush_rowCountsOf]
        rw [contRuns, if_neg (Ne.symm h)]
        have hsing : rowCountsOf [SumOut.rowCount st.currentLines, SumOut.rowClose, ro]
            = [st.currentLines] := by
          have := rowCountsOf_isRowOpen ro hro
          simp [rowCountsOf] at this ⊢
          exact this
        rw [hsing]
        simp
      · rw [ih2, newRuns, if_neg (Ne.symm h)]
        show st.count + 1 + newRuns e.name rest = st.count + (1 + newRuns e.name rest)
        omega

/-- Claim C2 (amended): a block whose metadata has no job URL is skipped —
no row is opened for it and it does not count toward the returned
`matchedRowCount` — while its events still advance the grouping tracker
(`lastName` is updated before the skip, so `specRowCount` threads every
event's name): the summary renderer opens exactly one row per block
boundary whose metadata carries a job URL and returns exactly that
count.  (The original claim's further assertion that each emitted row's
hit count covers only its own block's events is refuted by
`c2_counterexample`: trailing events of a skipped block leak into the
still-open row's counter.) -/
theorem c2_amended (hd : Int → String) (meta : String → Result × Bool) (start : Int)
    (evs : List MatchEvent) :
    (renderSummary hd meta start evs).2 = specRowCount meta "" evs ∧
    List.countP isRowOpen (renderSummary hd meta start evs).1 = specRowCount meta "" evs := by
  obtain ⟨h1, h2⟩ := sumGo_spec hd meta start evs initSum
  unfold renderSummary
  refine ⟨by simpa [initSum] using h1, ?_⟩
  rw [List.countP_append]
  have h0 : List.countP isRowOpen [SumOut.tableStart] = 0 := by decide
  have hbase : List.countP isRowOpen (sumGo hd meta start initSum evs).out
      = specRowCount meta "" evs := by simpa [initSum, h0] using h2
  split <;> simp [List.countP_append, hbase, isRowOpen]

theorem ctxGo_cons (hd : Int → String) (meta : String → Result × Bool) (start : Int)
    (st : CtxState) (e : MatchEvent) (rest : List MatchEvent) :
    ctxGo hd meta start st (e :: rest) =
      match ctxStep hd meta start st e with
      | (st', none) => ctxGo hd meta start st' rest
      | (st', some m) => (st', some m) := rfl

theorem ctxGo_cons_none (hd : Int → String) (meta : String → Result × Bool) (start : Int)
    (st : CtxState) (e : MatchEvent) (st' : CtxState)
    (h : ctxStep hd meta start st e = (st', none)) (rest : List MatchEvent) :
    ctxGo hd meta start st (e :: rest) = ctxGo hd meta start st' rest := by
  rw [ctxGo_cons, h]

theorem isHeaderLine_not_sep (o : CtxOut) (h : isHeaderLine o = true) : isSep o = false := by
  cases o <;> simp_all [isHeaderLine, isSep]

theorem isHeaderLine_not_blockOpen (o : CtxOut) (h : isHeaderLine o = true) :
    isBlockOpen o = false := by
  cases o <;> simp_all [isHeaderLine, isBlockOpen]

theorem ctxGo_same_run (hd : Int → String) (meta : String → Result × Bool) (start : Int)
    (n : String) :
    ∀ (rest : List MatchEvent) (st : CtxState), st.lastName = n → st.count = 1 →
      (∀ f ∈ rest, f.name = n) →
      (ctxGo hd meta start st rest).2 = none ∧
      (ctxGo hd meta start st rest).1.count = 1 ∧
      ∃ ext, (ctxGo hd meta start st rest).1.out = st.out ++ ext ∧
        List.countP isHeaderLine ext = 0 ∧
        List.countP isSep ext = rest.length ∧
        List.countP isBlockOpen ext = 0 := by
  intro rest
  induction rest with
  | nil =>
    intro st h1 h2 h3
    exact ⟨rfl, h2, [], (List.append_nil st.out).symm, rfl, rfl, rfl⟩
  | cons f rest ih =>
    intro st h1 h2 h3
    have hf : f.name = n := h3 f (List.mem_cons_self f rest)
    have hsame : st.lastName = f.name := by rw [h1, hf]
    have hstep := ctxStep_same hd meta start st f hsame
    rw [ctxFlush_of_count_one st h2] at hstep
    rw [ctxGo_cons_none hd meta start st f _ hstep rest]
    obtain ⟨g1, g2, ext, hout, hh, hs, hb⟩ := ih
      ⟨st.count, st.lineCount + (hitLines f.matchList).length, st.lastName,
        (st.out ++ [CtxOut.sep]) ++ hitOps f⟩ h1 h2
      (fun g hg => h3 g (List.mem_cons_of_mem f hg))
    refine ⟨g1, g2, [CtxOut.sep] ++ hitOps f ++ ext, ?_, ?_, ?_, ?_⟩
    · rw [hout]
      show (st.out ++ [CtxOut.sep]) ++ hitOps f ++ ext = _
      simp [List.append_assoc]
    · rw [List.countP_append, List.countP_append, hh,
        countP_hitOps isHeaderLine (fun _ => rfl) (fun _ => rfl)]
      decide
    · rw [List.countP_append, List.countP_append, hs,
        countP_hitOps isSep (fun _ => rfl) (fun _ => rfl)]
      have h1s : List.countP isSep [CtxOut.sep] = 1 := by decide
      rw [h1s, List.length_cons]
      omega
    · rw [List.countP_append, List.countP_append, hb,
        countP_hitOps isBlockOpen (fun _ => rfl) (fun _ => rfl)]
      decide

theorem renderWithContext_out (hd : Int → String) (meta : String → Result × Bool)
    (start : Int) (evs : List MatchEvent) (stf : CtxState)
    (h : ctxGo hd meta start initCtx evs = (stf, none)) (hc : 0 < stf.count) :
    renderWithContext hd meta start evs
      = ((stf.out ++ [CtxOut.closeBlock]) ++ [CtxOut.flush], stf.count, none) := by
  unfold renderWithContext
  rw [h]
  simp [hc]

theorem renderWithContext_out_zero (hd : Int → String) (meta : String → Result × Bool)
    (start : Int) (evs : List MatchEvent) (stf : CtxState)
    (h : ctxGo hd meta start initCtx evs = (stf, none)) (hc : stf.count = 0) :
    renderWithContext hd meta start evs = (stf.out ++ [CtxOut.flush], stf.count, none) := by
  unfold renderWithContext
  rw [h]
  simp [hc]

/-- Claim C1 (code bug): a metadata miss (zero-value metadata, nil job URL)
makes `renderWithContext` dereference a nil `*url.URL` on line 312
(`result.JobURI.String()`): the render panics while building the very
header the claim says is rendered with empty fields, emitting the
`<div class=...>` opening but never the header, the hit lines, the block
close or the final flush. -/
theorem c1_metadata_miss_panics :
    renderWithContext hdToString metaMissAll 0
        [{ name := "m", search := "p", matchList := ["x"], moreLines := 0 }]
      = ([CtxOut.flush, CtxOut.blockOpen], 1, some "nil pointer dereference") := by
  decide

/-- Claim C2 counterexample: for events `[b, b, a]` where `b` has no job
URL and `a` has one, the single emitted row (for `a`, which groups one
event) is written with hit count 2: the second `b` event incremented the
hit counter even though it belongs to the skipped block, so an emitted
row's hit count does not count only the events of its own block. -/
theorem c2_counterexample :
    rowCountsOf (renderSummary hdToString metaOnlyA 0
        [{ name := "b", search := "p", matchList := ["x"], moreLines := 0 },
         { name := "b", search := "p", matchList := ["x"], moreLines := 0 },
         { name := "a", search := "p", matchList := ["x"], moreLines := 0 }]).1 = [2] ∧
    (renderSummary hdToString metaOnlyA 0
        [{ name := "b", search := "p", matchList := ["x"], moreLines := 0 },
         { name := "b", search := "p", matchList := ["x"], moreLines := 0 },
         { name := "a", search := "p", matchList := ["x"], moreLines := 0 }]).2 = 1 := by
  decide

/-- Claim C3 (code bug): the hit-line cleanup drops every blank line,
interior ones included — the first loop of lines 316-323 executes
`continue` for any line that is empty after right-trimming, not only for
leading ones, contradicting the comment on line 315 (`remove empty
leading and trailing lines`) and the claim: the hit
`["a", "", "b"]` is emitted as the two lines `a`, `b`, not as
`a`, blank, `b`. -/
theorem c3_interior_blank_dropped :
    hitLines ["a", "", "b"] = ["a", "b"] ∧
    ctxLineStrings (renderWithContext hdToString metaAll 0
        [{ name := "n", search := "p", matchList := ["a", "", "b"], moreLines := 0 }]).1
      = ["a", "b"] := by
  decide

set_option maxRecDepth 1000000 in
/-- Claim C4: flush cadence.  For 120 sequential single-hit sources, both
renderers invoke the sink flush exactly 5 times (at counts 0, 5, 50 and
100 at the head of the callback — the cadence `count%50 == 0` plus the
extra `count == 5` flush — and once at the end of the render), which is
at least the claimed 3 cadence flushes plus the first-block flush; a
flush also occurs after the first block is opened; and with 5 flushes
against 120 hits the renderers do not flush on every single hit. -/
theorem c4_flush_cadence :
    List.countP isCtxFlush (renderWithContext hdToString metaAll 0 evs120).1 = 5 ∧
    List.countP isSumFlush (renderSummary hdToString metaAll 0 evs120).1 = 5 ∧
    ((renderWithContext hdToString metaAll 0 evs120).1.dropWhile
        (fun o => !(isBlockOpen o))).any isCtxFlush = true ∧
    ((renderSummary hdToString metaAll 0 evs120).1.dropWhile
        (fun o => !(isRowOpen o))).any isSumFlush = true ∧
    3 + 1 ≤ 5 ∧ 5 < evs120.length := by
  decide

/-- Claim C5 counterexample: the stream `[x-with-empty-name, A]` with every
source resolvable refutes the general statement that the row count
written for each block equals the number of events grouped into that
block: the empty-named first event is counted into `currentLines` while
no row is open, the counter is not reset when `A`'s row opens (the reset
is guarded by `count > 0`), and `A`'s row — a block of exactly one
event — is written with hit count 2. -/
theorem c5_counterexample :
    rowCountsOf (renderSummary hdToString metaAll 0
        [{ name := "", search := "p", matchList := ["x"], moreLines := 0 },
         { name := "A", search := "p", matchList := ["x"], moreLines := 0 }]).1 = [2] := by
  decide

/-- Claim C6 counterexample: a run of consecutive events sharing the
empty-string sourceID at the start of the stream gets no block header at
all (the tracker starts at `""`, so the run is treated as a continuation),
and the separator marker is emitted before its first hit — both parts of
the claim fail for this run. -/
theorem c6_counterexample :
    (renderWithContext hdToString metaAll 0
        [{ name := "", search := "p", matchList := ["z"], moreLines := 0 }]).1
      = [CtxOut.flush, CtxOut.sep, CtxOut.line "z", CtxOut.flush] ∧
    List.countP isHeaderLine (renderWithContext hdToString metaAll 0
        [{ name := "", search := "p", matchList := ["z"], moreLines := 0 }]).1 = 0 := by
  decide

/-- Claim C7 counterexample: the single-event stream whose sourceID is the
empty string has pairwise-distinct sourceIDs and a non-empty hit, yet the
context renderer opens no block for it and returns `matchedSourceCount`
0, not 1. -/
theorem c7_counterexample :
    (renderWithContext hdToString metaAll 0
        [{ name := "", search := "q", matchList := ["w"], moreLines := 0 }]).2.1 = 0 := by
  decide

/-- Claim C5 (amended): provided every source's metadata resolves to a job
URL and the stream's first sourceID is non-empty, the per-block hit
counter counts every event of the open block regardless of how many lines
each event carries, and the row count written for each block equals the
number of events grouped into that block: the written row counts are
exactly the run lengths of the event stream and the returned count is the
number of runs.  (The unconditional claim is refuted by
`c5_counterexample`; the claim's concrete example is checked in
`c5_amended_witness`.) -/
theorem c5_amended (hd : Int → String) (meta : String → Result × Bool) (start : Int)
    (e : MatchEvent) (rest : List MatchEvent)
    (hall : ∀ n, ((meta n).1.jobURI).isSome = true) (hn : e.name ≠ "") :
    rowCountsOf (renderSummary hd meta start (e :: rest)).1 = runLens (e :: rest) ∧
    (renderSummary hd meta start (e :: rest)).2 = (runLens (e :: rest)).length := by
  obtain ⟨uri, hu⟩ := Option.isSome_iff_exists.mp (hall e.name)
  have hne : ¬ initSum.lastName = e.name := fun hh => hn hh.symm
  obtain ⟨ro, hro, heq⟩ := sumStep_new_some_zero hd meta start initSum e hne uri hu rfl
  obtain ⟨ih1, ih2⟩ := sumGo_rows hd meta start hall rest
      ⟨1, initSum.currentLines + 1, e.name, (sumFlush initSum).out ++ [ro]⟩ Nat.one_pos
  have hro0 : rowCountsOf ((sumFlush initSum).out ++ [ro]) = [] := by
    rw [rowCountsOf_append, sumFlush_rowCountsOf, rowCountsOf_isRowOpen ro hro]
    rfl
  have ih1a : rowCountsOf (sumGo hd meta start
        ⟨1, initSum.currentLines + 1, e.name, (sumFlush initSum).out ++ [ro]⟩ rest).out
      ++ [(sumGo hd meta start
        ⟨1, initSum.currentLines + 1, e.name, (sumFlush initSum).out ++ [ro]⟩ rest).currentLines]
      = rowCountsOf ((sumFlush initSum).out ++ [ro]) ++ contRuns e.name 1 rest := ih1
  rw [hro0, List.nil_append] at ih1a
  have ih2a : (sumGo hd meta start
        ⟨1, initSum.currentLines + 1, e.name, (sumFlush initSum).out ++ [ro]⟩ rest).count
      = 1 + newRuns e.name rest := ih2
  simp only [renderSummary]
  rw [sumGo, heq]
  have hpos : (sumGo hd meta start
      ⟨1, initSum.currentLines + 1, e.name, (sumFlush initSum).out ++ [ro]⟩ rest).count > 0 := by
    rw [ih2a]; omega
  rw [if_pos hpos]
  refine ⟨?_, ?_⟩
  · rw [rowCountsOf_append, rowCountsOf_append]
    have h2 : rowCountsOf [SumOut.rowCount (sumGo hd meta start
        ⟨1, initSum.currentLines + 1, e.name, (sumFlush initSum).out ++ [ro]⟩ rest).currentLines,
        SumOut.rowClose] = [(sumGo hd meta start
        ⟨1, initSum.currentLines + 1, e.name, (sumFlush initSum).out ++ [ro]⟩ rest).currentLines] := rfl
    have h3 : rowCountsOf [SumOut.flush] = ([] : List Nat) := rfl
    rw [h2, h3, List.append_nil, runLens]
    exact ih1a
  · rw [runLens, contRuns_length]
    exact ih2a

/-- Witness for `c5_amended` at the claim's concrete example: the events
`[(A,_,_,_), (A,_,_,_), (B,_,_,_)]` with resolvable metadata for every
source yield exactly two rows with hit counts 2 and 1, and a returned
count of 2. -/
theorem c5_amended_witness :
    (∀ n, ((metaAll n).1.jobURI).isSome = true) ∧
    ({ name := "A", search := "p", matchList := ["x"], moreLines := 0 } : MatchEvent).name ≠ "" ∧
    rowCountsOf (renderSummary hdToString metaAll 0
        [{ name := "A", search := "p", matchList := ["x"], moreLines := 0 },
         { name := "A", search := "p", matchList := ["x", "y"], moreLines := 0 },
         { name := "B", search := "p", matchList := ["z"], moreLines := 0 }]).1 = [2, 1] ∧
    (renderSummary hdToString metaAll 0
        [{ name := "A", search := "p", matchList := ["x"], moreLines := 0 },
         { name := "A", search := "p", matchList := ["x", "y"], moreLines := 0 },
         { name := "B", search := "p", matchList := ["z"], moreLines := 0 }]).2 = 2 := by
  have h := c5_amended hdToString metaAll 0
      { name := "A", search := "p", matchList := ["x"], moreLines := 0 }
      [{ name := "A", search := "p", matchList := ["x", "y"], moreLines := 0 },
       { name := "B", search := "p", matchList := ["z"], moreLines := 0 }]
      (fun n => rfl) (by decide)
  refine ⟨fun n => rfl, by decide, ?_, ?_⟩
  · rw [h.1]; decide
  · rw [h.2]; decide

/-- Claim C6 (amended): for a stream consisting of one maximal run of
events sharing a non-empty sourceID `n` whose metadata resolves to a job
URL, the context renderer emits exactly one block header — the trace is
flush, block-open, header, then a tail containing no further header —
and writes exactly `length - 1` separator markers, one between each pair
of consecutive hits and never between the header and the first hit (the
header is the third operation of the trace, preceded only by the flush
and the block opening).  (The unconditional claim fails when the run
carries the empty sourceID at stream start: `c6_counterexample`.) -/
theorem c6_amended (hd : Int → String) (meta : String → Result × Bool) (start : Int)
    (n : String) (hn : n ≠ "") (uri : String) (hu : (meta n).1.jobURI = some uri)
    (e : MatchEvent) (rest : List MatchEvent) (he : e.name = n)
    (hrest : ∀ f ∈ rest, f.name = n) :
    (renderWithContext hd meta start (e :: rest)).2.2 = none ∧
    (renderWithContext hd meta start (e :: rest)).2.1 = 1 ∧
    List.countP isSep (renderWithContext hd meta start (e :: rest)).1 = rest.length ∧
    ∃ hl tail, isHeaderLine hl = true ∧
      (renderWithContext hd meta start (e :: rest)).1
        = CtxOut.flush :: CtxOut.blockOpen :: hl :: tail ∧
      List.countP isHeaderLine tail = 0 := by
  have hne : ¬ initCtx.lastName = e.name := by
    show ¬ "" = e.name
    intro hh
    rw [he] at hh
    exact hn hh.symm
  have hu2 : (meta e.name).1.jobURI = some uri := by rw [he]; exact hu
  obtain ⟨hl, hhl, hstep⟩ := ctxStep_new_some hd meta start initCtx e hne uri hu2
  have hstep2 : ctxStep hd meta start initCtx e =
      (⟨1, 0 + (hitLines e.matchList).length, e.name,
        CtxOut.flush :: CtxOut.blockOpen :: hl :: hitOps e⟩, none) := hstep
  have hmain := ctxGo_cons_none hd meta start initCtx e _ hstep2 rest
  obtain ⟨g1, g2, ext, hout, hh, hs, hb⟩ := ctxGo_same_run hd meta start n rest
      ⟨1, 0 + (hitLines e.matchList).length, e.name,
        CtxOut.flush :: CtxOut.blockOpen :: hl :: hitOps e⟩ he rfl hrest
  rcases hgo : ctxGo hd meta start
      ⟨1, 0 + (hitLines e.matchList).length, e.name,
        CtxOut.flush :: CtxOut.blockOpen :: hl :: hitOps e⟩ rest with ⟨stf, err⟩
  rw [hgo] at g1 g2 hout
  have gerr : err = none := g1
  subst gerr
  have g2c : stf.count = 1 := g2
  have houtc : stf.out
      = (CtxOut.flush :: CtxOut.blockOpen :: hl :: hitOps e) ++ ext := hout
  have hrwc := renderWithContext_out hd meta start (e :: rest) stf
      (by rw [hmain]; exact hgo) (by rw [g2c]; omega)
  refine ⟨by rw [hrwc], by rw [hrwc]; exact g2c, ?_, ?_⟩
  · have z1 : isSep CtxOut.flush = false := rfl
    have z2 : isSep CtxOut.blockOpen = false := rfl
    have z3 : isSep CtxOut.closeBlock = false := rfl
    simp only [hrwc]
    rw [houtc]
    simp [List.countP_append, List.countP_cons, List.countP_nil, z1, z2, z3,
      countP_hitOps isSep (fun _ => rfl) (fun _ => rfl), hs, isHeaderLine_not_sep hl hhl]
  · refine ⟨hl, ((hitOps e ++ ext) ++ [CtxOut.closeBlock]) ++ [CtxOut.flush], hhl, ?_, ?_⟩
    · simp only [hrwc]
      rw [houtc]
      simp [List.append_assoc, List.cons_append]
    · have z1 : isHeaderLine CtxOut.flush = false := rfl
      have z3 : isHeaderLine CtxOut.closeBlock = false := rfl
      simp [List.countP_append, List.countP_cons, List.countP_nil, z1, z3,
        countP_hitOps isHeaderLine (fun _ => rfl) (fun _ => rfl), hh]

/-- Witness for `c6_amended`: a two-hit run for source `N` yields a trace
of the form flush, block-open, header, tail; exactly one separator; no
error; one counted source. -/
theorem c6_amended_witness :
    (("N" : String) ≠ "" ∧ (metaAll "N").1.jobURI = some "N") ∧
    (renderWithContext hdToString metaAll 0
        [{ name := "N", search := "p", matchList := ["l1"], moreLines := 0 },
         { name := "N", search := "p", matchList := ["l2"], moreLines := 0 }]).2.2 = none ∧
    (renderWithContext hdToString metaAll 0
        [{ name := "N", search := "p", matchList := ["l1"], moreLines := 0 },
         { name := "N", search := "p", matchList := ["l2"], moreLines := 0 }]).2.1 = 1 ∧
    List.countP isSep (renderWithContext hdToString metaAll 0
        [{ name := "N", search := "p", matchList := ["l1"], moreLines := 0 },
         { name := "N", search := "p", matchList := ["l2"], moreLines := 0 }]).1 = 1 ∧
    ∃ hl tail, isHeaderLine hl = true ∧
      (renderWithContext hdToString metaAll 0
          [{ name := "N", search := "p", matchList := ["l1"], moreLines := 0 },
           { name := "N", search := "p", matchList := ["l2"], moreLines := 0 }]).1
        = CtxOut.flush :: CtxOut.blockOpen :: hl :: tail ∧
      List.countP isHeaderLine tail = 0 := by
  have h := c6_amended hdToString metaAll 0 "N" (by decide) "N" rfl
      { name := "N", search := "p", matchList := ["l1"], moreLines := 0 }
      [{ name := "N", search := "p", matchList := ["l2"], moreLines := 0 }]
      rfl (by decide)
  exact ⟨⟨by decide, rfl⟩, h.1, h.2.1, h.2.2.1, h.2.2.2⟩

theorem ctxGo_all_new (hd : Int → String) (meta : String → Result × Bool) (start : Int) :
    ∀ (evs : List MatchEvent) (st : CtxState),
      (∀ e ∈ evs, ((meta e.name).1.jobURI).isSome = true) →
      (evs.map (fun e => e.name)).Nodup →
      st.lastName ∉ evs.map (fun e => e.name) →
      (ctxGo hd meta start st evs).2 = none ∧
      (ctxGo hd meta start st evs).1.count = st.count + evs.length ∧
      List.countP isBlockOpen (ctxGo hd meta start st evs).1.out
        = List.countP isBlockOpen st.out + evs.length ∧
      List.countP isHeaderLine (ctxGo hd meta start st evs).1.out
        = List.countP isHeaderLine st.out + evs.length := by
  intro evs
  induction evs with
  | nil => intro st _ _ _; exact ⟨rfl, rfl, rfl, rfl⟩
  | cons e rest ih =>
    intro st hm hnd hnotin
    have hme : ((meta e.name).1.jobURI).isSome = true := hm e (List.mem_cons_self e rest)
    obtain ⟨uri, hu⟩ := Option.isSome_iff_exists.mp hme
    have hne : ¬ st.lastName = e.name := by
      intro hh
      refine hnotin ?_
      rw [List.map_cons, hh]
      exact List.mem_cons_self _ _
    have hnd2 := hnd
    rw [List.map_cons] at hnd2
    have hhead : e.name ∉ List.map (fun f => f.name) rest := (List.nodup_cons.mp hnd2).1
    have htail : (List.map (fun f => f.name) rest).Nodup := (List.nodup_cons.mp hnd2).2
    obtain ⟨hl, hhl, hstep⟩ := ctxStep_new_some hd meta start st e hne uri hu
    rw [ctxGo_cons_none hd meta start st e _ hstep rest]
    obtain ⟨g1, g2, g3, g4⟩ := ih
      ⟨st.count + 1, st.lineCount + (hitLines e.matchList).length, e.name,
        ((ctxFlush st).out ++
          ((if 0 < st.count then [CtxOut.closeBlock] else []) ++ [CtxOut.blockOpen, hl]))
          ++ hitOps e⟩
      (fun f hf => hm f (List.mem_cons_of_mem e hf)) htail hhead
    have hifb : List.countP isBlockOpen
        (if 0 < st.count then [CtxOut.closeBlock] else []) = 0 := by
      split <;> rfl
    have hifh : List.countP isHeaderLine
        (if 0 < st.count then [CtxOut.closeBlock] else []) = 0 := by
      split <;> rfl
    have zbo : isBlockOpen CtxOut.blockOpen = true := rfl
    have zho : isHeaderLine CtxOut.blockOpen = false := rfl
    refine ⟨g1, ?_, ?_, ?_⟩
    · rw [g2]
      show st.count + 1 + rest.length = st.count + (e :: rest).length
      rw [List.length_cons]
      omega
    · rw [g3]
      have hsplit : List.countP isBlockOpen
          ((((ctxFlush st).out ++
            ((if 0 < st.count then [CtxOut.closeBlock] else []) ++ [CtxOut.blockOpen, hl]))
            ++ hitOps e))
          = List.countP isBlockOpen st.out + 1 := by
        rw [List.countP_append, List.countP_append, List.countP_append,
          ctxFlush_countP isBlockOpen rfl, hifb,
          countP_hitOps isBlockOpen (fun _ => rfl) (fun _ => rfl)]
        simp [List.countP_cons, List.countP_nil, zbo, isHeaderLine_not_blockOpen hl hhl]
      rw [hsplit, List.length_cons]
      omega
    · rw [g4]
      have hsplit : List.countP isHeaderLine
          ((((ctxFlush st).out ++
            ((if 0 < st.count then [CtxOut.closeBlock] else []) ++ [CtxOut.blockOpen, hl]))
            ++ hitOps e))
          = List.countP isHeaderLine st.out + 1 := by
        rw [List.countP_append, List.countP_append, List.countP_append,
          ctxFlush_countP isHeaderLine rfl, hifh,
          countP_hitOps isHeaderLine (fun _ => rfl) (fun _ => rfl)]
        simp [List.countP_cons, List.countP_nil, zho, hhl]
      rw [hsplit, List.length_cons]
      omega

/-- Claim C7 (amended): for any event sequence with pairwise-distinct
non-empty sourceIDs, non-empty hit line lists and resolvable job URLs,
the context renderer opens exactly one block per event (one block-open
and one header line per event) and the returned `matchedSourceCount`
equals the number of events.  (The unconditional claim fails when a
sourceID is the empty string: `c7_counterexample`.) -/
theorem c7_amended (hd : Int → String) (meta : String → Result × Bool) (start : Int)
    (evs : List MatchEvent)
    (hnd : (evs.map (fun e => e.name)).Nodup)
    (hne : ∀ e ∈ evs, e.name ≠ "")
    (hnl : ∀ e ∈ evs, e.matchList ≠ [])
    (hm : ∀ e ∈ evs, ((meta e.name).1.jobURI).isSome = true) :
    (renderWithContext hd meta start evs).2.2 = none ∧
    (renderWithContext hd meta start evs).2.1 = evs.length ∧
    List.countP isBlockOpen (renderWithContext hd meta start evs).1 = evs.length ∧
    List.countP isHeaderLine (renderWithContext hd meta start evs).1 = evs.length := by
  have hnotin : initCtx.lastName ∉ evs.map (fun e => e.name) := by
    intro hmem
    obtain ⟨e, hmem2, heq⟩ := List.mem_map.mp hmem
    exact hne e hmem2 heq
  obtain ⟨g1, g2, g3, g4⟩ := ctxGo_all_new hd meta start evs initCtx hm hnd hnotin
  cases evs with
  | nil => exact ⟨rfl, rfl, rfl, rfl⟩
  | cons e rest =>
    rcases hgo : ctxGo hd meta start initCtx (e :: rest) with ⟨stf, err⟩
    rw [hgo] at g1 g2 g3 g4
    have gerr : err = none := g1
    subst gerr
    have g2a : stf.count = 0 + (e :: rest).length := g2
    have hc : 0 < stf.count := by rw [g2a, List.length_cons]; omega
    have hrwc := renderWithContext_out hd meta start (e :: rest) stf hgo hc
    have g3a : List.countP isBlockOpen stf.out = 0 + (e :: rest).length := g3
    have g4a : List.countP isHeaderLine stf.out = 0 + (e :: rest).length := g4
    refine ⟨by rw [hrwc], ?_, ?_, ?_⟩
    · rw [hrwc]
      show stf.count = (e :: rest).length
      omega
    · simp only [hrwc]
      have zc : List.countP isBlockOpen [CtxOut.closeBlock] = 0 := rfl
      have zf : List.countP isBlockOpen [CtxOut.flush] = 0 := rfl
      rw [List.countP_append, List.countP_append, g3a, zc, zf]
      omega
    · simp only [hrwc]
      have zc : List.countP isHeaderLine [CtxOut.closeBlock] = 0 := rfl
      have zf : List.countP isHeaderLine [CtxOut.flush] = 0 := rfl
      rw [List.countP_append, List.countP_append, g4a, zc, zf]
      omega

/-- Witness for `c7_amended`: two events with distinct non-empty sources
and non-empty hits produce two blocks, two headers and a count of 2. -/
theorem c7_amended_witness :
    ((([{ name := "a", search := "p", matchList := ["x"], moreLines := 0 },
        { name := "b", search := "p", matchList := ["y"], moreLines := 0 }] :
          List MatchEvent).map (fun e => e.name)).Nodup) ∧
    (renderWithContext hdToString metaAll 0
        [{ name := "a", search := "p", matchList := ["x"], moreLines := 0 },
         { name := "b", search := "p", matchList := ["y"], moreLines := 0 }]).2.2 = none ∧
    (renderWithContext hdToString metaAll 0
        [{ name := "a", search := "p", matchList := ["x"], moreLines := 0 },
         { name := "b", search := "p", matchList := ["y"], moreLines := 0 }]).2.1 = 2 ∧
    List.countP isBlockOpen (renderWithContext hdToString metaAll 0
        [{ name := "a", search := "p", matchList := ["x"], moreLines := 0 },
         { name := "b", search := "p", matchList := ["y"], moreLines := 0 }]).1 = 2 ∧
    List.countP isHeaderLine (renderWithContext hdToString metaAll 0
        [{ name := "a", search := "p", matchList := ["x"], moreLines := 0 },
         { name := "b", search := "p", matchList := ["y"], moreLines := 0 }]).1 = 2 := by
  have h := c7_amended hdToString metaAll 0
      [{ name := "a", search := "p", matchList := ["x"], moreLines := 0 },
       { name := "b", search := "p", matchList := ["y"], moreLines := 0 }]
      (by decide) (by decide) (by decide) (fun e he => rfl)
  exact ⟨by decide, h.1, h.2.1, h.2.2.1, h.2.2.2⟩

theorem ctxLineStrings_append (a b : List CtxOut) :
    ctxLineStrings (a ++ b) = ctxLineStrings a ++ ctxLineStrings b := by
  unfold ctxLineStrings
  exact List.filterMap_append a b _

theorem ctxLineStrings_map_line (ls : List String) :
    ctxLineStrings (ls.map (fun l => CtxOut.line (htmlEscape l))) = ls.map htmlEscape := by
  induction ls with
  | nil => rfl
  | cons a t ih =>
    simp only [List.map_cons, ctxLineStrings, List.filterMap_cons] at ih ⊢
    rw [ih]

theorem ctxLineStrings_hitOps (e : MatchEvent) :
    ctxLineStrings (hitOps e) = (hitLines e.matchList).map htmlEscape := by
  unfold hitOps
  rw [ctxLineStrings_append, ctxLineStrings_map_line]
  have hz : ctxLineStrings (if e.moreLines > 0 then [CtxOut.moreNotice e.moreLines] else [])
      = [] := by
    split <;> rfl
  rw [hz, List.append_nil]

/-- Claim C10: both grouping trackers start at the Go zero value `""`, so a
stream whose first event has the empty-string sourceID is treated as the
continuation of a nonexistent open block: no block header or block
opening is written, no summary row is opened, neither renderer counts it,
and in the context renderer the hit lines are emitted outside any block
markup (the trace contains the lines but no block-open and no header). -/
theorem c10_empty_first_source (hd : Int → String) (meta : String → Result × Bool)
    (start : Int) (e : MatchEvent) (h : e.name = "") :
    (renderWithContext hd meta start [e]).2.2 = none ∧
    (renderWithContext hd meta start [e]).2.1 = 0 ∧
    List.countP isHeaderLine (renderWithContext hd meta start [e]).1 = 0 ∧
    List.countP isBlockOpen (renderWithContext hd meta start [e]).1 = 0 ∧
    ctxLineStrings (renderWithContext hd meta start [e]).1
      = (hitLines e.matchList).map htmlEscape ∧
    (renderSummary hd meta start [e]).2 = 0 ∧
    List.countP isRowOpen (renderSummary hd meta start [e]).1 = 0 := by
  have hstep2 : ctxStep hd meta start initCtx e =
      (⟨0, 0 + (hitLines e.matchList).length, "",
        [CtxOut.flush, CtxOut.sep] ++ hitOps e⟩, none) := by
    have hh := ctxStep_same hd meta start initCtx e (by rw [h]; rfl)
    exact hh
  have hgo : ctxGo hd meta start initCtx [e]
      = (⟨0, 0 + (hitLines e.matchList).length, "", [CtxOut.flush, CtxOut.sep] ++ hitOps e⟩,
         none) := by
    rw [ctxGo_cons_none hd meta start initCtx e _ hstep2 []]
    rfl
  have hrwc := renderWithContext_out_zero hd meta start [e]
      ⟨0, 0 + (hitLines e.matchList).length, "", [CtxOut.flush, CtxOut.sep] ++ hitOps e⟩
      hgo rfl
  have hsum : renderSummary hd meta start [e]
      = ([SumOut.tableStart, SumOut.flush] ++ [SumOut.flush], 0) := by
    have hstep : sumStep hd meta start initSum e
        = ⟨0, 1, "", [SumOut.tableStart, SumOut.flush]⟩ := by
      have hh := sumStep_same hd meta start initSum e (by rw [h]; rfl)
      exact hh
    simp only [renderSummary, sumGo]
    rw [hstep]
    rfl
  refine ⟨by simp [hrwc], by simp [hrwc], ?_, ?_, ?_, by simp [hsum], by simp [hsum]; decide⟩
  · simp only [hrwc]
    rw [List.countP_append, List.countP_append,
      countP_hitOps isHeaderLine (fun _ => rfl) (fun _ => rfl)]
    decide
  · simp only [hrwc]
    rw [List.countP_append, List.countP_append,
      countP_hitOps isBlockOpen (fun _ => rfl) (fun _ => rfl)]
    decide
  · simp only [hrwc]
    rw [ctxLineStrings_append, ctxLineStrings_append, ctxLineStrings_hitOps]
    have z1 : ctxLineStrings [CtxOut.flush, CtxOut.sep] = [] := rfl
    have z2 : ctxLineStrings [CtxOut.flush] = [] := rfl
    rw [z1, z2, List.nil_append, List.append_nil]

/-- Witness for `c10_empty_first_source`: the single-event stream with
sourceID `""` and hit line `ln` produces no header, no block opening, no
row, zero counts, and emits the line outside any block markup. -/
theorem c10_witness :
    (({ name := "", search := "p", matchList := ["ln"], moreLines := 0 } : MatchEvent).name
      = "") ∧
    (renderWithContext hdToString metaAll 0
        [{ name := "", search := "p", matchList := ["ln"], moreLines := 0 }]).2.2 = none ∧
    (renderWithContext hdToString metaAll 0
        [{ name := "", search := "p", matchList := ["ln"], moreLines := 0 }]).2.1 = 0 ∧
    List.countP isHeaderLine (renderWithContext hdToString metaAll 0
        [{ name := "", search := "p", matchList := ["ln"], moreLines := 0 }]).1 = 0 ∧
    List.countP isBlockOpen (renderWithContext hdToString metaAll 0
        [{ name := "", search := "p", matchList := ["ln"], moreLines := 0 }]).1 = 0 ∧
    ctxLineStrings (renderWithContext hdToString metaAll 0
        [{ name := "", search := "p", matchList := ["ln"], moreLines := 0 }]).1
      = (hitLines ["ln"]).map htmlEscape ∧
    (renderSummary hdToString metaAll 0
        [{ name := "", search := "p", matchList := ["ln"], moreLines := 0 }]).2 = 0 ∧
    List.countP isRowOpen (renderSummary hdToString metaAll 0
        [{ name := "", search := "p", matchList := ["ln"], moreLines := 0 }]).1 = 0 := by
  have h := c10_empty_first_source hdToString metaAll 0
      { name := "", search := "p", matchList := ["ln"], moreLines := 0 } rfl
  exact ⟨rfl, h.1, h.2.1, h.2.2.1, h.2.2.2.1, h.2.2.2.2.1, h.2.2.2.2.2.1, h.2.2.2.2.2.2⟩

theorem length_pos_of_ne_empty (s : String) (h : s ≠ "") : s.length > 0 := by
  cases s with
  | mk data =>
    cases data with
    | nil => exact absurd rfl h
    | cons a t => simp [String.length]

theorem isOkE_eq_false_of (r : Except String Index)
    (h : ∀ idx, r ≠ Except.ok idx) : isOkE r = false := by
  cases r with
  | error m => rfl
  | ok idx => exact absurd rfl (h idx)

theorem parseRequest_ok_parts (mode : String) (oMaxAge : Int) (pd : String → Option Int)
    (cr : String → Bool) (form : Form) (idx : Index)
    (h : parseRequest mode oMaxAge pd cr form = Except.ok idx) :
    (∃ st, parseSearchType form.typ = Except.ok st ∧ idx.searchType = st) ∧
    (∃ ma, parseMaxAgeField pd form.maxAge = Except.ok ma) ∧
    (∃ ctx, parseContextField mode form.context = Except.ok ctx ∧ idx.context = ctx) := by
  simp only [parseRequest] at h
  cases hst : parseSearchType form.typ with
  | error m => rw [hst] at h; exact Except.noConfusion h
  | ok st =>
    rw [hst] at h
    cases hjob : parseJob mode cr form.name with
    | error m => rw [hjob] at h; exact Except.noConfusion h
    | ok job =>
      rw [hjob] at h
      cases hma : parseMaxAgeField pd form.maxAge with
      | error m => rw [hma] at h; exact Except.noConfusion h
      | ok ma =>
        rw [hma] at h
        cases hctx : parseContextField mode form.context with
        | error m => rw [hctx] at h; exact Except.noConfusion h
        | ok ctx =>
          rw [hctx] at h
          have h2 : Except.ok
              (⟨(if form.search = [] ∧ mode = "chart" then chartPatterns else form.search),
                st, job, clampMaxAge mode oMaxAge ma, ctx⟩ : Index) = Except.ok idx := h
          injection h2 with h5
          subst h5
          exact ⟨⟨st, rfl, rfl⟩, ⟨ma, rfl⟩, ⟨ctx, rfl, rfl⟩⟩

/-- Claim C8: query normalization returns a validation error — producing
no part of the descriptor — whenever `searchType` is a value other than
junit, build-log, all or empty (empty maps to all), whenever `maxAge` is
an unparsable duration or parses negative, and whenever `contextLines`
is not an integer in `[-1, 15]`; an absent `contextLines` in the text
mode defaults to the context-view default 2, and an empty `searchType`
normalizes to `all`. -/
theorem c8_parse_validation (oMA : Int) (pd : String → Option Int) (cr : String → Bool)
    (form : Form) :
    (¬ (form.typ = "junit" ∨ form.typ = "build-log" ∨ form.typ = "all" ∨ form.typ = "") →
      isOkE (parseRequest "text" oMA pd cr form) = false) ∧
    (form.maxAge ≠ "" → pd form.maxAge = none →
      isOkE (parseRequest "text" oMA pd cr form) = false) ∧
    (∀ d, form.maxAge ≠ "" → pd form.maxAge = some d → d < 0 →
      isOkE (parseRequest "text" oMA pd cr form) = false) ∧
    (form.context ≠ "" → goAtoi form.context = none →
      isOkE (parseRequest "text" oMA pd cr form) = false) ∧
    (∀ n, form.context ≠ "" → goAtoi form.context = some n → (n < -1 ∨ n > 15) →
      isOkE (parseRequest "text" oMA pd cr form) = false) ∧
    (∀ idx, form.context = "" → parseRequest "text" oMA pd cr form = Except.ok idx →
      idx.context = 2) ∧
    (∀ idx, form.typ = "" → parseRequest "text" oMA pd cr form = Except.ok idx →
      idx.searchType = "all") := by
  refine ⟨?_, ?_, ?_, ?_, ?_, ?_, ?_⟩
  · intro ht
    refine isOkE_eq_false_of _ (fun idx hidx => ?_)
    obtain ⟨⟨st, hok, -⟩, -, -⟩ := parseRequest_ok_parts _ _ _ _ _ _ hidx
    have h1 : ¬ form.typ = "junit" := fun hh => ht (Or.inl hh)
    have h2 : ¬ form.typ = "build-log" := fun hh => ht (Or.inr (Or.inl hh))
    have h3 : ¬ form.typ = "all" := fun hh => ht (Or.inr (Or.inr (Or.inl hh)))
    have h4 : ¬ form.typ = "" := fun hh => ht (Or.inr (Or.inr (Or.inr hh)))
    simp [parseSearchType, h1, h2, h3, h4] at hok
  · intro hma hpd
    refine isOkE_eq_false_of _ (fun idx hidx => ?_)
    obtain ⟨-, ⟨ma, hok⟩, -⟩ := parseRequest_ok_parts _ _ _ _ _ _ hidx
    have hlen := length_pos_of_ne_empty form.maxAge hma
    simp [parseMaxAgeField, hlen, hpd] at hok
  · intro d hma hpd hd
    refine isOkE_eq_false_of _ (fun idx hidx => ?_)
    obtain ⟨-, ⟨ma, hok⟩, -⟩ := parseRequest_ok_parts _ _ _ _ _ _ hidx
    have hlen := length_pos_of_ne_empty form.maxAge hma
    simp [parseMaxAgeField, hlen, hpd, hd] at hok
  · intro hctx hatoi
    refine isOkE_eq_false_of _ (fun idx hidx => ?_)
    obtain ⟨-, -, ⟨ctx, hok, -⟩⟩ := parseRequest_ok_parts _ _ _ _ _ _ hidx
    have hlen := length_pos_of_ne_empty form.context hctx
    simp [parseContextField, hlen, hatoi] at hok
  · intro n hctx hatoi hbound
    refine isOkE_eq_false_of _ (fun idx hidx => ?_)
    obtain ⟨-, -, ⟨ctx, hok, -⟩⟩ := parseRequest_ok_parts _ _ _ _ _ _ hidx
    have hlen := length_pos_of_ne_empty form.context hctx
    simp [parseContextField, hlen, hatoi, hbound] at hok
  · intro idx hctx hidx
    obtain ⟨-, -, ⟨ctx, hok, hic⟩⟩ := parseRequest_ok_parts _ _ _ _ _ _ hidx
    rw [hctx] at hok
    have hval : parseContextField "text" "" = Except.ok 2 := rfl
    rw [hval] at hok
    injection hok with h6
    rw [hic, ← h6]
  · intro idx htyp hidx
    obtain ⟨⟨st, hok, his⟩, -, -⟩ := parseRequest_ok_parts _ _ _ _ _ _ hidx
    rw [htyp] at hok
    have hval : parseSearchType "" = Except.ok "all" := rfl
    rw [hval] at hok
    injection hok with h7
    rw [his, ← h7]

/-- Witness for `c8_parse_validation`: the searchType value `bogus` is
rejected by the normalizer. -/
theorem c8_parse_validation_witness :
    (¬ (("bogus" : String) = "junit" ∨ ("bogus" : String) = "build-log"
        ∨ ("bogus" : String) = "all" ∨ ("bogus" : String) = "")) ∧
    isOkE (parseRequest "text" 0 (fun _ => none) (fun _ => true)
      ⟨[], "bogus", "", "", ""⟩) = false :=
  ⟨by decide, (c8_parse_validation 0 (fun _ => none) (fun _ => true)
      ⟨[], "bogus", "", "", ""⟩).1 (by decide)⟩

/-- Claim C9: every descriptor `parseRequest` produces has `contextLines`
in `[-1, 15]`, and that value alone determines the renderer: -1 selects
the summary renderer, any value ≥ 0 selects the context renderer, and
the two are never both selected. -/
theorem c9_renderer_dispatch (mode : String) (oMA : Int) (pd : String → Option Int)
    (cr : String → Bool) (form : Form) (idx : Index)
    (h : parseRequest mode oMA pd cr form = Except.ok idx) :
    (-1 ≤ idx.context ∧ idx.context ≤ 15) ∧
    (selectRenderer idx.context = Renderer.summary ↔ idx.context = -1) ∧
    (selectRenderer idx.context = Renderer.context ↔ 0 ≤ idx.context) ∧
    ¬ (selectRenderer idx.context = Renderer.summary ∧
       selectRenderer idx.context = Renderer.context) := by
  obtain ⟨-, -, ⟨ctx, hcf, hic⟩⟩ := parseRequest_ok_parts _ _ _ _ _ _ h
  have hrange : -1 ≤ ctx ∧ ctx ≤ 15 := by
    unfold parseContextField at hcf
    split at hcf
    · cases hatoi : goAtoi form.context with
      | none => rw [hatoi] at hcf; exact Except.noConfusion hcf
      | some n =>
        rw [hatoi] at hcf
        have hcf2 : (if n < -1 ∨ n > 15
            then Except.error "context must be a number between -1 and 15"
            else Except.ok n) = Except.ok ctx := hcf
        by_cases hb : n < -1 ∨ n > 15
        · rw [if_pos hb] at hcf2; exact Except.noConfusion hcf2
        · rw [if_neg hb] at hcf2
          injection hcf2 with h5
          subst h5
          push_neg at hb
          omega
    · split at hcf
      · injection hcf with h5; omega
      · injection hcf with h5; omega
  rw [hic]
  have hsel : ∀ c : Int, -1 ≤ c → c ≤ 15 →
      (selectRenderer c = Renderer.summary ↔ c = -1) ∧
      (selectRenderer c = Renderer.context ↔ 0 ≤ c) ∧
      ¬ (selectRenderer c = Renderer.summary ∧ selectRenderer c = Renderer.context) := by
    intro c hc1 hc2
    unfold selectRenderer
    by_cases hc : c ≥ 0
    · rw [if_pos hc]
      refine ⟨⟨fun hh => Renderer.noConfusion hh, fun hh => ?_⟩,
        ⟨fun _ => hc, fun _ => rfl⟩, fun ⟨hh, _⟩ => Renderer.noConfusion hh⟩
      omega
    · rw [if_neg hc]
      refine ⟨⟨fun _ => ?_, fun _ => rfl⟩,
        ⟨fun hh => Renderer.noConfusion hh, fun hh => absurd hh hc⟩,
        fun ⟨_, hh⟩ => Renderer.noConfusion hh⟩
      omega
  exact ⟨hrange, hsel ctx hrange.1 hrange.2⟩

/-- Witness for `c9_renderer_dispatch`: the empty text-mode request parses
to a descriptor with contextLines 2, which selects the context
renderer. -/
theorem c9_renderer_dispatch_witness :
    (parseRequest "text" 0 (fun _ => none) (fun _ => true) ⟨[], "", "", "", ""⟩
        = Except.ok ⟨[], "all", false, 7 * 24 * goHour, 2⟩) ∧
    ((-1 ≤ (2 : Int) ∧ (2 : Int) ≤ 15) ∧
      (selectRenderer 2 = Renderer.summary ↔ (2 : Int) = -1) ∧
      (selectRenderer 2 = Renderer.context ↔ (0 : Int) ≤ 2) ∧
      ¬ (selectRenderer 2 = Renderer.summary ∧ selectRenderer 2 = Renderer.context)) :=
  ⟨rfl, c9_renderer_dispatch "text" 0 (fun _ => none) (fun _ => true)
      ⟨[], "", "", "", ""⟩ ⟨[], "all", false, 7 * 24 * goHour, 2⟩ rfl⟩

end CiSearch
